import Mathlib

/-!
Shallow embedding of `llama_index/llms/llama_cpp.py` (the `LlamaCPP` adapter):
the constructor's artifact resolution and kwargs handling, the `_download_url`
fetch routine, and the `complete` / `chat` / `stream_complete` operations.

Python dictionaries are modelled as insertion-ordered association lists,
`os.path` helpers by their posixpath semantics, the filesystem by a partial
map from paths to file contents, and the opaque inference engine by a
function parameter.  Exceptions are modelled by explicit error values.
-/

set_option autoImplicit false

namespace LlamaCpp

/-- Values stored in the Python keyword-argument dictionaries.  Float values
(the sampling temperature) are only ever stored and compared, never computed
with, so rationals stand in for them. -/
inductive PyVal where
  | int (n : Int)
  | bool (b : Bool)
  | float (q : ℚ)
  | str (s : String)
  deriving DecidableEq, Repr

/-- A Python `dict` (insertion-ordered association list with unique keys). -/
abbrev PyDict := List (String × PyVal)

/-- `d[k]` lookup: first binding of the key, if any. -/
def dictGet : PyDict → String → Option PyVal
  | [], _ => none
  | (k', v) :: rest, k => if k' = k then some v else dictGet rest k

/-- Set one key: replace the value in place if the key is present (keeping
its position, as CPython dicts do), otherwise append the binding. -/
def dictSet : PyDict → String → PyVal → PyDict
  | [], k, v => [(k, v)]
  | (k', v') :: rest, k, v =>
    if k' = k then (k, v) :: rest else (k', v') :: dictSet rest k v

/-- `d.update({...})`: fold `dictSet` over the updates, in order. -/
def dictUpdate (d : PyDict) (kvs : List (String × PyVal)) : PyDict :=
  kvs.foldl (fun acc kv => dictSet acc kv.1 kv.2) d

/-! ### posixpath helpers (`os.path.basename`, `os.path.dirname`, `os.path.join`) -/

/-- Split a character list around its last `'/'`: `some (before, after)`,
or `none` when the list contains no slash. -/
def splitAtLastSlash : List Char → Option (List Char × List Char)
  | [] => none
  | c :: rest =>
    match splitAtLastSlash rest with
    | some (pre, post) => some (c :: pre, post)
    | none => if c = '/' then some ([], rest) else none

/-- `os.path.basename`: everything after the last `'/'` (the whole string
when there is no slash). -/
def basename (s : String) : String :=
  match splitAtLastSlash s.data with
  | some (_, post) => String.mk post
  | none => s

/-- Drop trailing `'/'` characters. -/
def rstripSlashes (cs : List Char) : List Char :=
  (cs.reverse.dropWhile (fun c => c = '/')).reverse

/-- `os.path.dirname`: the prefix up to the last `'/'`; the slash-run ending
that prefix is stripped unless the prefix is nothing but slashes. -/
def dirname (s : String) : String :=
  match splitAtLastSlash s.data with
  | none => ""
  | some (pre, _) =>
    let head := pre ++ ['/']
    if head.all (fun c => c = '/') then String.mk head
    else String.mk (rstripSlashes head)

/-- `s.startswith("/")`. -/
def startsWithSlash (s : String) : Bool := s.data.head? = some '/'

/-- `s.endswith("/")`. -/
def endsWithSlash (s : String) : Bool := s.data.getLast? = some '/'

/-- Two-argument `os.path.join` (posix semantics). -/
def join2 (a b : String) : String :=
  if startsWithSlash b then b
  else if a = "" ∨ endsWithSlash a then a ++ b
  else a ++ "/" ++ b

/-- Three-argument `os.path.join`, as in `os.path.join(cache_dir, "models", model_name)`. -/
def join3 (a b c : String) : String := join2 (join2 a b) c

/-- Concatenation of a list of strings, in order. -/
def joinStr : List String → String
  | [] => ""
  | s :: rest => s ++ joinStr rest

/-! ### Engine responses -/

/-- One element of the engine response's `"choices"` list; only its
`"text"` field is read by the adapter. -/
structure Choice where
  text : String
  deriving DecidableEq, Repr

/-- A raw engine response (or one streamed chunk): a `"choices"` list. -/
structure RawResponse where
  choices : List Choice
  deriving DecidableEq, Repr

/-- The framework's `CompletionResponse`: full text so far, optional
streaming delta, and the raw engine response. -/
structure CompletionResponse where
  text : String
  delta : Option String := none
  raw : RawResponse
  deriving DecidableEq, Repr

/-- A chat message (role and content). -/
structure ChatMessage where
  role : String
  content : String
  deriving DecidableEq, Repr

/-- A chat response wrapping a message plus the raw engine response. -/
structure ChatResponse where
  message : ChatMessage
  raw : RawResponse
  deriving DecidableEq, Repr

/-! ### The `_download_url` fetch routine -/

/-- The Python exceptions that the embedded code can surface. -/
inductive PyError where
  /-- `ValueError("Provided model path does not exist. ...")` from `__init__`. -/
  | valueErrorPathMissing
  /-- `ValueError("Content should be at least 1 MB, but is only", hdr, "bytes")`:
  the content-validation error raised when the declared size is too small. -/
  | valueErrorContentTooSmall (header : Option Nat)
  /-- `ValueError("Download incomplete.")` raised from the `finally` block. -/
  | valueErrorIncomplete
  /-- `FileNotFoundError` from `os.remove` on a path that holds no file. -/
  | fileNotFound
  /-- a `requests` exception raised by `requests.get` itself. -/
  | connectionError
  /-- any exception raised while streaming body chunks to disk. -/
  | writeError
  deriving DecidableEq, Repr

/-- One download attempt as the code observes it: whether `requests.get`
succeeds, the parsed `Content-Length` header (`none` when absent), the body
chunks `iter_content` yields, and whether writing them raises. -/
structure DlScenario where
  connectOk : Bool
  contentLength : Option Nat
  chunks : List String
  writeError : Bool
  deriving DecidableEq, Repr

/-- The observable outcome of `_download_url`: the file at the target path
when the routine returns (`none` = no file), the exception its `except`
block caught and printed, and the exception propagated to the caller. -/
structure DlResult where
  fileAtTarget : Option String
  caught : Option PyError
  raised : Option PyError
  deriving DecidableEq, Repr

/-- `int(r.headers.get("Content-Length") or "0")`: an absent header parses
as `0`. -/
def parsedContentLength (h : Option Nat) : Nat :=
  match h with
  | none => 0
  | some n => n

/-- `LlamaCPP._download_url(model_url, model_path)`.  `preFile` is the file
already at the target path, if any (when called from `__init__` there is
none).  The body: `requests.get`, then `open(model_path, "wb")` (creating
the file), then the `Content-Length` check (`< 1000 * 1000` raises the
content-validation `ValueError`), then the chunk-writing loop.  Any
exception is caught and printed; the `finally` block then removes the
target file and raises `ValueError("Download incomplete.")` — but when no
file exists at the target, `os.remove` itself raises `FileNotFoundError`
and the `ValueError` on the next line is never reached. -/
def download (preFile : Option String) (s : DlScenario) : DlResult :=
  if s.connectOk then
    -- `open(model_path, "wb")` has created (or truncated) the target file.
    if parsedContentLength s.contentLength < 1000 * 1000 then
      { fileAtTarget := none
        caught := some (.valueErrorContentTooSmall s.contentLength)
        raised := some .valueErrorIncomplete }
    else if s.writeError then
      { fileAtTarget := none
        caught := some .writeError
        raised := some .valueErrorIncomplete }
    else
      { fileAtTarget := some (joinStr s.chunks), caught := none, raised := none }
  else
    -- `requests.get` raised before `open` ran: the target file is whatever
    -- was there before, and `os.remove` in `finally` acts on that.
    match preFile with
    | some _ =>
      { fileAtTarget := none
        caught := some .connectionError
        raised := some .valueErrorIncomplete }
    | none =>
      { fileAtTarget := none
        caught := some .connectionError
        raised := some .fileNotFound }

/-! ### `LlamaCPP.__init__` -/

/-- The constructor arguments the claims depend on.  `model_kwargs` and
`generate_kwargs` hold the caller-supplied dictionaries (`[]` models both
an omitted argument, i.e. Python `None`, and a supplied empty dict: both
are falsy, so `kwargs or {}` treats them alike). -/
structure InitArgs where
  model_url : String
  model_path : Option String
  temperature : ℚ
  max_new_tokens : Int
  context_window : Int
  generate_kwargs : PyDict
  model_kwargs : PyDict
  verbose : Bool
  deriving DecidableEq, Repr

/-- The observable outcome of `__init__`.  `fsAfter` is the filesystem when
the constructor returns (or raises); `callerModelKwargs` and
`callerGenerateKwargs` are the contents of the caller's own dictionary
objects afterwards, which differ from the field values when `kwargs or {}`
replaced a falsy (empty) argument with a fresh dict, severing aliasing. -/
structure InitResult where
  error : Option PyError
  resolvedPath : Option String
  downloadCalled : Bool
  madeDir : Option String
  fsAfter : String → Option String
  callerModelKwargs : PyDict
  callerGenerateKwargs : PyDict
  fieldModelKwargs : PyDict
  fieldGenerateKwargs : PyDict

/-- The tail of `__init__` once a model file is in place: `generate_kwargs`
is defaulted and updated with `temperature` and `max_tokens`, and
`super().__init__` stores the fields. -/
def finishInit (args : InitArgs) (fsA : String → Option String) (path : String)
    (callerMk mk : PyDict) (dlCalled : Bool) (made : Option String) : InitResult :=
  let gk := dictUpdate args.generate_kwargs
    [("temperature", .float args.temperature), ("max_tokens", .int args.max_new_tokens)]
  -- an empty caller dict is falsy: `generate_kwargs or {}` substitutes a
  -- fresh dict, so the caller's object is not the one updated.
  let callerGk := if args.generate_kwargs.isEmpty then args.generate_kwargs else gk
  { error := none
    resolvedPath := some path
    downloadCalled := dlCalled
    madeDir := made
    fsAfter := fsA
    callerModelKwargs := callerMk
    callerGenerateKwargs := callerGk
    fieldModelKwargs := mk
    fieldGenerateKwargs := gk }

/-- `LlamaCPP.__init__`.  `fs` maps paths to file contents (`none` = no
file), `cacheDir` is `get_cache_dir()`, and `dl` is the download attempt
the network would serve if `_download_url` runs.  The body: update
`model_kwargs` with `n_ctx` and `verbose`; then either check an explicit
`model_path` (missing → `ValueError`, before any network access) or derive
`os.path.join(cache_dir, "models", basename(model_url))`, on a cache miss
`os.makedirs` the parent and `_download_url`; finally default and update
`generate_kwargs` and store the fields.  The `Llama(...)` engine
construction is opaque and modelled as always succeeding. -/
def init (args : InitArgs) (fs : String → Option String) (cacheDir : String)
    (dl : DlScenario) : InitResult :=
  let mk := dictUpdate args.model_kwargs
    [("n_ctx", .int args.context_window), ("verbose", .bool args.verbose)]
  -- as for `generate_kwargs`: an empty caller dict is replaced by a fresh
  -- one before the update, so the caller's object is left untouched.
  let callerMk := if args.model_kwargs.isEmpty then args.model_kwargs else mk
  match args.model_path with
  | some p =>
    if fs p = none then
      { error := some .valueErrorPathMissing
        resolvedPath := none
        downloadCalled := false
        madeDir := none
        fsAfter := fs
        callerModelKwargs := callerMk
        callerGenerateKwargs := args.generate_kwargs
        fieldModelKwargs := mk
        fieldGenerateKwargs := [] }
    else
      finishInit args fs p callerMk mk false none
  | none =>
    let path := join3 cacheDir "models" (basename args.model_url)
    if fs path = none then
      let made := dirname path
      let d := download (fs path) dl
      let fs2 := fun q => if q = path then d.fileAtTarget else fs q
      match d.raised with
      | some e =>
        { error := some e
          resolvedPath := none
          downloadCalled := true
          madeDir := some made
          fsAfter := fs2
          callerModelKwargs := callerMk
          callerGenerateKwargs := args.generate_kwargs
          fieldModelKwargs := mk
          fieldGenerateKwargs := [] }
      | none =>
        finishInit args fs2 path callerMk mk true (some made)
    else
      finishInit args fs path callerMk mk false none

/-- The path at which `__init__` looks for the model file: the explicit
`model_path` when supplied, otherwise the cache path derived from the URL. -/
def resolvedTarget (args : InitArgs) (cacheDir : String) : String :=
  match args.model_path with
  | some p => p
  | none => join3 cacheDir "models" (basename args.model_url)

/-! ### `complete`, `chat`, `stream_complete` -/

/-- The per-instance state the generation methods touch: the shared mutable
`generate_kwargs` dict and the two injectable formatting functions. -/
structure LLMState where
  generate_kwargs : PyDict
  completion_to_prompt : String → String
  messages_to_prompt : List ChatMessage → String

/-- `LlamaCPP.complete`: force `stream: False` into the shared
`generate_kwargs`, apply `completion_to_prompt`, call the engine, and wrap
`response["choices"][0]["text"]` (an empty `choices` list would raise an
`IndexError`, modelled as `none`) together with the raw response.  Returns
the response paired with the updated instance state. -/
def complete (st : LLMState) (engine : String → PyDict → RawResponse)
    (prompt : String) : Option CompletionResponse × LLMState :=
  let gk := dictUpdate st.generate_kwargs [("stream", .bool false)]
  let p := st.completion_to_prompt prompt
  let resp := engine p gk
  (resp.choices.head?.map (fun c => { text := c.text, delta := none, raw := resp }),
   { st with generate_kwargs := gk })

/-- Modelled from the spec: `completion_response_to_chat_response` from
`llama_index.llms.generic_utils` is imported by the file but its body is
not part of this repository excerpt.  Per the spec it repackages the
result "as chat-shaped responses (same text/delta/raw fields, framed as an
assistant reply rather than a raw completion)". -/
def completion_response_to_chat_response (cr : CompletionResponse) : ChatResponse :=
  { message := { role := "assistant", content := cr.text }, raw := cr.raw }

/-- `LlamaCPP.chat`: format the messages with `messages_to_prompt`, run
`complete` on the resulting prompt, and repackage the completion response
as a chat response. -/
def chat (st : LLMState) (engine : String → PyDict → RawResponse)
    (messages : List ChatMessage) : Option ChatResponse × LLMState :=
  let prompt := st.messages_to_prompt messages
  let out := complete st engine prompt
  (out.1.map completion_response_to_chat_response, out.2)

/-- `response["choices"][0]["text"]` of a streamed chunk, when the chunk
has at least one choice. -/
def firstText (r : RawResponse) : Option String :=
  r.choices.head?.map Choice.text

/-- The generator body of `stream_complete`: starting from accumulated
`text`, each chunk's first-choice text is appended and yielded as
`CompletionResponse(delta=delta, text=text, raw=response)`.  A chunk with
no choices raises (`none`). -/
def genAux (text : String) : List RawResponse → Option (List CompletionResponse)
  | [] => some []
  | r :: rest =>
    match r.choices.head? with
    | none => none
    | some c =>
      let text2 := text ++ c.text
      (genAux text2 rest).map
        (fun l => { text := text2, delta := some c.text, raw := r } :: l)

/-- `LlamaCPP.stream_complete`: force `stream: True` into the shared
`generate_kwargs`, apply `completion_to_prompt`, obtain the chunk sequence
from the engine, and run the accumulating generator over it. -/
def stream_complete (st : LLMState) (engineStream : String → PyDict → List RawResponse)
    (prompt : String) : Option (List CompletionResponse) × LLMState :=
  let gk := dictUpdate st.generate_kwargs [("stream", .bool true)]
  let p := st.completion_to_prompt prompt
  let chunks := engineStream p gk
  (genAux "" chunks, { st with generate_kwargs := gk })

/-- The chunk sequence `stream_complete` consumes for a given prompt. -/
def streamChunks (st : LLMState) (engineStream : String → PyDict → List RawResponse)
    (prompt : String) : List RawResponse :=
  engineStream (st.completion_to_prompt prompt)
    (dictUpdate st.generate_kwargs [("stream", .bool true)])

/-! ### Concrete fixtures used by witnesses -/

/-- A constructor call with an explicit `model_path`. -/
def witnessArgsExplicit : InitArgs :=
  { model_url := "https://host/models/m.bin"
    model_path := some "/nonexistent.bin"
    temperature := 1 / 10
    max_new_tokens := 256
    context_window := 3900
    generate_kwargs := []
    model_kwargs := []
    verbose := true }

/-- A download attempt that would succeed, for calls that never reach it. -/
def witnessDl : DlScenario :=
  { connectOk := true, contentLength := some 2000000, chunks := ["bytes"], writeError := false }

/-- A connected response declaring only 5 bytes of content. -/
def witnessDlSmall : DlScenario :=
  { connectOk := true, contentLength := some 5, chunks := ["abc"], writeError := false }

/-- A constructor call without an explicit `model_path`. -/
def witnessArgsUrl : InitArgs :=
  { model_url := "https://host/models/m.bin"
    model_path := none
    temperature := 1 / 10
    max_new_tokens := 256
    context_window := 3900
    generate_kwargs := []
    model_kwargs := []
    verbose := true }

/-- A constructor call supplying non-empty kwargs dictionaries, with values
under the very keys the constructor overwrites. -/
def witnessArgsKwargs : InitArgs :=
  { model_url := "https://host/models/m.bin"
    model_path := some "/m.bin"
    temperature := 7 / 10
    max_new_tokens := 64
    context_window := 2048
    generate_kwargs := [("temperature", .float 0), ("top_p", .float (1 / 2))]
    model_kwargs := [("n_ctx", .int 1)]
    verbose := false }

/-- An instance state with identity prompt shaping. -/
def witnessState : LLMState :=
  { generate_kwargs := []
    completion_to_prompt := fun s => s
    messages_to_prompt := fun _ => "" }

/-- A two-chunk engine stream. -/
def witnessChunks : List RawResponse :=
  [{ choices := [{ text := "Hel" }] }, { choices := [{ text := "lo" }] }]

/-- An engine whose streaming call yields `witnessChunks`. -/
def witnessEngineStream : String → PyDict → List RawResponse :=
  fun _ _ => witnessChunks

/-- The responses `stream_complete` yields over `witnessChunks`. -/
def witnessStreamOut : List CompletionResponse :=
  [{ text := "Hel", delta := some "Hel", raw := { choices := [{ text := "Hel" }] } },
   { text := "Hello", delta := some "lo", raw := { choices := [{ text := "lo" }] } }]

/-! ### Dictionary lemmas -/

theorem dictGet_dictSet_self (d : PyDict) (k : String) (v : PyVal) :
    dictGet (dictSet d k v) k = some v := by
  induction d with
  | nil => simp [dictSet, dictGet]
  | cons p rest ih =>
    obtain ⟨k', v'⟩ := p
    by_cases h : k' = k
    · simp [dictSet, h, dictGet]
    · simp [dictSet, h, dictGet, ih]

theorem dictGet_dictSet_ne (d : PyDict) (k q : String) (v : PyVal) (h : k ≠ q) :
    dictGet (dictSet d k v) q = dictGet d q := by
  induction d with
  | nil => simp [dictSet, dictGet, h]
  | cons p rest ih =>
    obtain ⟨k', v'⟩ := p
    by_cases hk : k' = k
    · subst hk
      have hne : ¬ (k' = q) := h
      simp [dictSet, dictGet, hne]
    · by_cases hq : k' = q
      · subst hq
        simp [dictSet, hk, dictGet]
      · simp [dictSet, hk, dictGet, hq, ih]

theorem dictUpdate_pair (d : PyDict) (k₁ k₂ : String) (v₁ v₂ : PyVal) :
    dictUpdate d [(k₁, v₁), (k₂, v₂)] = dictSet (dictSet d k₁ v₁) k₂ v₂ := by
  simp [dictUpdate]

theorem isEmpty_false_of_ne_nil {α : Type} {l : List α} (h : l ≠ []) :
    l.isEmpty = false := by
  cases l with
  | nil => exact absurd rfl h
  | cons a t => rfl

/-! ### String lemmas -/

theorem joinStr_cons (s : String) (l : List String) :
    joinStr (s :: l) = s ++ joinStr l := rfl

end LlamaCpp

namespace LlamaCpp

/-- Claim C3: `complete` applies the configured `completion_to_prompt`
transform to the input prompt, invokes the engine with the streaming flag
forced off, and returns exactly the text of the first choice of the
engine's response, untransformed, together with the raw engine response;
the only state change is the `stream: False` entry in `generate_kwargs`. -/
theorem complete_returns_first_choice_verbatim (st : LLMState)
    (engine : String → PyDict → RawResponse) (prompt : String) :
    (complete st engine prompt).1 =
      ((engine (st.completion_to_prompt prompt)
          (dictUpdate st.generate_kwargs [("stream", .bool false)])).choices.head?.map
        (fun c =>
          { text := c.text
            delta := none
            raw := engine (st.completion_to_prompt prompt)
              (dictUpdate st.generate_kwargs [("stream", .bool false)]) })) ∧
    (complete st engine prompt).2 =
      { st with generate_kwargs := dictUpdate st.generate_kwargs [("stream", .bool false)] } :=
  ⟨rfl, rfl⟩

/-- Claim C2: `chat` is exactly the composition of the configured
message-to-prompt formatter with `complete`: it returns `complete`'s
response repackaged as an assistant chat reply with the same `text` and
`raw` fields, and its final state is exactly `complete`'s final state. -/
theorem chat_is_formatting_then_complete (st : LLMState)
    (engine : String → PyDict → RawResponse) (messages : List ChatMessage) :
    (chat st engine messages).1 =
      ((complete st engine (st.messages_to_prompt messages)).1.map
        (fun cr => { message := { role := "assistant", content := cr.text }, raw := cr.raw })) ∧
    (chat st engine messages).2 = (complete st engine (st.messages_to_prompt messages)).2 :=
  ⟨rfl, rfl⟩

/-- Claim C4: when the engine's declared size (the parsed `Content-Length`)
is below the one-megabyte minimum, the fetch routine raises the
content-validation `ValueError` (caught and surfaced as the fatal
`ValueError("Download incomplete.")`) and leaves no file at the target
path. -/
theorem download_small_content_rejected (pre : Option String) (s : DlScenario)
    (hc : s.connectOk = true)
    (hsmall : parsedContentLength s.contentLength < 1000 * 1000) :
    (download pre s).caught = some (.valueErrorContentTooSmall s.contentLength) ∧
    (download pre s).raised = some .valueErrorIncomplete ∧
    (download pre s).fileAtTarget = none := by
  simp [download, hc, hsmall]

/-- Witness for `download_small_content_rejected`: a connected response
declaring only 5 bytes. -/
theorem download_small_content_rejected_witness :
    (witnessDlSmall.connectOk = true ∧
     parsedContentLength witnessDlSmall.contentLength < 1000 * 1000) ∧
    (download none witnessDlSmall).fileAtTarget = none :=
  ⟨⟨rfl, by decide⟩,
   (download_small_content_rejected none witnessDlSmall rfl (by decide)).2.2⟩

/-- Claim C5 (evaluation at the failing input): when `requests.get` itself
fails — before `open` has created the target file — the `finally` block's
`os.remove` raises `FileNotFoundError`, so the caller sees that error and
never the intended `ValueError("Download incomplete.")`. -/
theorem download_connect_failure_raises_file_not_found :
    download none
      { connectOk := false, contentLength := some 2000000, chunks := [], writeError := false } =
      { fileAtTarget := none, caught := some .connectionError, raised := some .fileNotFound } :=
  rfl

/-- Claim C10: the minimum-size validation is decided solely by the parsed
`Content-Length` header: with a working connection and no write failure the
download succeeds exactly when the header parses to at least 1,000,000
(absent parses as 0), and the raised outcome is unchanged under replacing
the body chunks by any other body. -/
theorem download_size_check_header_only (pre : Option String) (s : DlScenario)
    (hc : s.connectOk = true) (hw : s.writeError = false) :
    ((download pre s).raised = none ↔ 1000 * 1000 ≤ parsedContentLength s.contentLength) ∧
    (∀ body : List String,
      (download pre { s with chunks := body }).raised = (download pre s).raised) := by
  constructor
  · by_cases h : parsedContentLength s.contentLength < 1000 * 1000
    · simp [download, hc, h]
    · simp [download, hc, h, hw]
      omega

  · intro body
    by_cases h : parsedContentLength s.contentLength < 1000 * 1000 <;>
      simp [download, hc, hw, h]

/-- Witness for `download_size_check_header_only`: a header declaring two
megabytes while the body is tiny still passes the size check. -/
theorem download_size_check_header_only_witness :
    (witnessDl.connectOk = true ∧ witnessDl.writeError = false) ∧
    ((download none witnessDl).raised = none ↔
      1000 * 1000 ≤ parsedContentLength witnessDl.contentLength) :=
  ⟨⟨rfl, rfl⟩, (download_size_check_header_only none witnessDl rfl rfl).1⟩

/-- Claim C6: when an explicit `model_path` is supplied and no file exists
there, construction fails with the configuration `ValueError` and the
download routine — the only site of network access — is never invoked. -/
theorem init_missing_explicit_path_fails_before_download (args : InitArgs)
    (fs : String → Option String) (cacheDir : String) (dl : DlScenario) (p : String)
    (hp : args.model_path = some p) (hmiss : fs p = none) :
    (init args fs cacheDir dl).error = some .valueErrorPathMissing ∧
    (init args fs cacheDir dl).downloadCalled = false := by
  simp [init, hp, hmiss]

/-- Witness for `init_missing_explicit_path_fails_before_download`. -/
theorem init_missing_explicit_path_witness :
    (witnessArgsExplicit.model_path = some "/nonexistent.bin" ∧
     (fun (_ : String) => (none : Option String)) "/nonexistent.bin" = none) ∧
    (init witnessArgsExplicit (fun _ => none) "/cache" witnessDl).error =
      some .valueErrorPathMissing :=
  ⟨⟨rfl, rfl⟩,
   (init_missing_explicit_path_fails_before_download witnessArgsExplicit
      (fun _ => none) "/cache" witnessDl "/nonexistent.bin" rfl rfl).1⟩

/-- Claim C7: when the resolved target path already holds a file, the fetch
routine is skipped entirely — no download (hence no network access) occurs,
the filesystem is returned unchanged, and construction succeeds. -/
theorem init_cached_target_skips_download (args : InitArgs)
    (fs : String → Option String) (cacheDir : String) (dl : DlScenario) (c : String)
    (h : fs (resolvedTarget args cacheDir) = some c) :
    (init args fs cacheDir dl).downloadCalled = false ∧
    (init args fs cacheDir dl).fsAfter = fs ∧
    (init args fs cacheDir dl).error = none := by
  rcases hmp : args.model_path with _ | p
  · rw [resolvedTarget, hmp] at h
    have h2 : ¬ fs (join3 cacheDir "models" (basename args.model_url)) = none := by
      rw [h]; exact Option.some_ne_none c
    simp [init, hmp, h2, finishInit]
  · rw [resolvedTarget, hmp] at h
    have h2 : ¬ fs p = none := by rw [h]; exact Option.some_ne_none c
    simp [init, hmp, h2, finishInit]

/-- Witness for `init_cached_target_skips_download`: an explicit path whose
file exists. -/
theorem init_cached_target_witness :
    (fun (_ : String) => (some "weights" : Option String))
        (resolvedTarget witnessArgsExplicit "/cache") = some "weights" ∧
    (init witnessArgsExplicit (fun _ => some "weights") "/cache" witnessDl).downloadCalled =
      false :=
  ⟨rfl,
   (init_cached_target_skips_download witnessArgsExplicit (fun _ => some "weights")
      "/cache" witnessDl "weights" rfl).1⟩

/-! ### Constructor kwargs handling (claim C9) -/

theorem init_callerModelKwargs_eq (args : InitArgs) (fs : String → Option String)
    (cacheDir : String) (dl : DlScenario) :
    (init args fs cacheDir dl).callerModelKwargs =
      if args.model_kwargs.isEmpty then args.model_kwargs
      else dictUpdate args.model_kwargs
        [("n_ctx", .int args.context_window), ("verbose", .bool args.verbose)] := by
  rcases hmp : args.model_path with _ | p
  · by_cases h1 : fs (join3 cacheDir "models" (basename args.model_url)) = none
    · rcases hr : (download none dl).raised with _ | e <;>
        simp [init, hmp, h1, hr, finishInit]
    · simp [init, hmp, h1, finishInit]
  · by_cases h1 : fs p = none
    · simp [init, hmp, h1]
    · simp [init, hmp, h1, finishInit]

theorem init_ok_callerGenerateKwargs_eq (args : InitArgs) (fs : String → Option String)
    (cacheDir : String) (dl : DlScenario)
    (hok : (init args fs cacheDir dl).error = none) :
    (init args fs cacheDir dl).callerGenerateKwargs =
      if args.generate_kwargs.isEmpty then args.generate_kwargs
      else dictUpdate args.generate_kwargs
        [("temperature", .float args.temperature), ("max_tokens", .int args.max_new_tokens)] := by
  rcases hmp : args.model_path with _ | p
  · by_cases h1 : fs (join3 cacheDir "models" (basename args.model_url)) = none
    · rcases hr : (download none dl).raised with _ | e
      · simp [init, hmp, h1, hr, finishInit]
      · simp [init, hmp, h1, hr] at hok
    · simp [init, hmp, h1, finishInit]
  · by_cases h1 : fs p = none
    · simp [init, hmp, h1] at hok
    · simp [init, hmp, h1, finishInit]

/-- Claim C9 counterexample: a caller-supplied *empty* `generate_kwargs`
dict is falsy, so `generate_kwargs or {}` substitutes a fresh dict and the
caller's own dictionary is not mutated: after a successful construction it
still has no `temperature` entry. -/
theorem init_empty_kwargs_not_mutated :
    (init witnessArgsExplicit (fun _ => some "weights") "/cache" witnessDl).error = none ∧
    (init witnessArgsExplicit (fun _ => some "weights") "/cache" witnessDl).callerGenerateKwargs
      = [] ∧
    dictGet (init witnessArgsExplicit (fun _ => some "weights") "/cache"
      witnessDl).callerGenerateKwargs "temperature" = none :=
  ⟨rfl, rfl, rfl⟩

/-- Claim C9 (amended): for every successful construction whose
caller-supplied `model_kwargs` and `generate_kwargs` are non-empty, both
dictionaries are mutated in place: afterwards `model_kwargs` maps `n_ctx`
to `context_window` and `verbose` to the verbose flag, and
`generate_kwargs` maps `temperature` and `max_tokens` to the configured
temperature and `max_new_tokens`, overwriting any caller-supplied values
under those keys (an empty caller dict is instead replaced by a fresh one
and left untouched). -/
theorem init_nonempty_kwargs_overwritten (args : InitArgs) (fs : String → Option String)
    (cacheDir : String) (dl : DlScenario)
    (hmk : args.model_kwargs ≠ []) (hgk : args.generate_kwargs ≠ [])
    (hok : (init args fs cacheDir dl).error = none) :
    dictGet (init args fs cacheDir dl).callerModelKwargs "n_ctx" =
      some (.int args.context_window) ∧
    dictGet (init args fs cacheDir dl).callerModelKwargs "verbose" =
      some (.bool args.verbose) ∧
    dictGet (init args fs cacheDir dl).callerGenerateKwargs "temperature" =
      some (.float args.temperature) ∧
    dictGet (init args fs cacheDir dl).callerGenerateKwargs "max_tokens" =
      some (.int args.max_new_tokens) := by
  rw [init_callerModelKwargs_eq, init_ok_callerGenerateKwargs_eq args fs cacheDir dl hok]
  rw [isEmpty_false_of_ne_nil hmk, isEmpty_false_of_ne_nil hgk]
  simp only [if_false, Bool.false_eq_true, ite_false]
  refine ⟨?_, ?_, ?_, ?_⟩
  · rw [dictUpdate_pair, dictGet_dictSet_ne _ _ _ _ (by decide), dictGet_dictSet_self]
  · rw [dictUpdate_pair, dictGet_dictSet_self]
  · rw [dictUpdate_pair, dictGet_dictSet_ne _ _ _ _ (by decide), dictGet_dictSet_self]
  · rw [dictUpdate_pair, dictGet_dictSet_self]

/-- Witness for `init_nonempty_kwargs_overwritten`: non-empty caller dicts
whose `n_ctx` and `temperature` entries get overwritten. -/
theorem init_nonempty_kwargs_overwritten_witness :
    (witnessArgsKwargs.model_kwargs ≠ [] ∧ witnessArgsKwargs.generate_kwargs ≠ [] ∧
     (init witnessArgsKwargs (fun _ => some "weights") "/cache" witnessDl).error = none) ∧
    dictGet (init witnessArgsKwargs (fun _ => some "weights") "/cache"
      witnessDl).callerModelKwargs "n_ctx" = some (.int 2048) :=
  ⟨⟨by simp [witnessArgsKwargs], by simp [witnessArgsKwargs], rfl⟩,
   (init_nonempty_kwargs_overwritten witnessArgsKwargs (fun _ => some "weights") "/cache"
      witnessDl (by simp [witnessArgsKwargs]) (by simp [witnessArgsKwargs]) rfl).1⟩

/-! ### Path resolution (claim C8) -/

theorem splitAtLastSlash_spec (cs : List Char) :
    (splitAtLastSlash cs = none → '/' ∉ cs) ∧
    (∀ pre post, splitAtLastSlash cs = some (pre, post) →
      cs = pre ++ '/' :: post ∧ '/' ∉ post) := by
  induction cs with
  | nil =>
    refine ⟨fun _ => List.not_mem_nil _, fun pre post h => ?_⟩
    simp [splitAtLastSlash] at h
  | cons c rest ih =>
    rcases hs : splitAtLastSlash rest with _ | ⟨pre2, post2⟩
    · by_cases hc : c = '/'
      · subst hc
        constructor
        · intro h
          simp [splitAtLastSlash, hs] at h
        · intro pre post h
          simp [splitAtLastSlash, hs] at h
          obtain ⟨h1, h2⟩ := h
          subst h1
          subst h2
          exact ⟨rfl, ih.1 hs⟩
      · constructor
        · intro _ hmem
          rcases List.mem_cons.mp hmem with h1 | h2
          · exact hc h1.symm
          · exact ih.1 hs h2
        · intro pre post h
          simp [splitAtLastSlash, hs, hc] at h
    · constructor
      · intro h
        simp [splitAtLastSlash, hs] at h
      · intro pre post h
        simp [splitAtLastSlash, hs] at h
        obtain ⟨h1, h2⟩ := h
        subst h1
        subst h2
        obtain ⟨he, hp⟩ := ih.2 pre2 post2 hs
        exact ⟨by rw [List.cons_append, ← he], hp⟩

theorem splitAtLastSlash_eq_none_of_no_slash (cs : List Char) (h : '/' ∉ cs) :
    splitAtLastSlash cs = none := by
  rcases hs : splitAtLastSlash cs with _ | ⟨pre, post⟩
  · rfl
  · obtain ⟨he, _⟩ := (splitAtLastSlash_spec cs).2 pre post hs
    rw [he] at h
    simp at h

theorem splitAtLastSlash_append (xs ys : List Char) (h : '/' ∉ ys) :
    splitAtLastSlash (xs ++ '/' :: ys) = some (xs, ys) := by
  induction xs with
  | nil => simp [splitAtLastSlash, splitAtLastSlash_eq_none_of_no_slash ys h]
  | cons x xs ih => simp [splitAtLastSlash, ih]

theorem basename_no_slash (s : String) : '/' ∉ (basename s).data := by
  unfold basename
  rcases hs : splitAtLastSlash s.data with _ | ⟨pre, post⟩
  · exact (splitAtLastSlash_spec s.data).1 hs
  · exact ((splitAtLastSlash_spec s.data).2 pre post hs).2

theorem startsWithSlash_eq_false (s : String) (h : '/' ∉ s.data) :
    startsWithSlash s = false := by
  unfold startsWithSlash
  rcases hd : s.data with _ | ⟨c, l⟩
  · rfl
  · rw [hd] at h
    have hc : ¬ (c = '/') := by
      intro he
      subst he
      exact h (List.mem_cons_self _ _)
    simp [hc]

theorem join3_models (cacheDir bn : String) (hne : cacheDir ≠ "")
    (hslash : endsWithSlash cacheDir = false) (hbn : '/' ∉ bn.data) :
    join3 cacheDir "models" bn = cacheDir ++ "/models/" ++ bn := by
  have h1 : startsWithSlash "models" = false := by decide
  have hj1 : join2 cacheDir "models" = cacheDir ++ "/" ++ "models" := by
    simp [join2, h1, hne, hslash]
  have h2 : startsWithSlash bn = false := startsWithSlash_eq_false bn hbn
  have hm : ("models" : String).data = ['m', 'o', 'd', 'e', 'l', 's'] := rfl
  have h3 : (cacheDir ++ "/" ++ "models") ≠ "" := by
    intro hx
    have hx2 := congrArg String.data hx
    simp [String.data_append, hm] at hx2
  have h4 : endsWithSlash (cacheDir ++ "/" ++ "models") = false := by
    unfold endsWithSlash
    rw [String.data_append, String.data_append]
    rw [List.getLast?_append_of_ne_nil (cacheDir.data ++ ("/" : String).data)
      (show ("models" : String).data ≠ [] by decide)]
    decide
  have hj2 : join2 (cacheDir ++ "/" ++ "models") bn =
      cacheDir ++ "/" ++ "models" ++ "/" ++ bn := by
    simp [join2, h2, h3, h4]
  rw [join3, hj1, hj2]
  apply String.ext
  have hs1 : ("/" : String).data = ['/'] := rfl
  have hs3 : ("/models/" : String).data = ['/', 'm', 'o', 'd', 'e', 'l', 's', '/'] := rfl
  simp [String.data_append, hs1, hm, hs3]

theorem dirname_cache_path (cacheDir bn : String) (hbn : '/' ∉ bn.data) :
    dirname (cacheDir ++ "/models/" ++ bn) = cacheDir ++ "/models" := by
  unfold dirname
  have hd : (cacheDir ++ "/models/" ++ bn).data =
      (cacheDir.data ++ ['/', 'm', 'o', 'd', 'e', 'l', 's']) ++ '/' :: bn.data := by
    have hs3 : ("/models/" : String).data = ['/', 'm', 'o', 'd', 'e', 'l', 's', '/'] := rfl
    simp [String.data_append, hs3]
  rw [hd, splitAtLastSlash_append _ _ hbn]
  have hall : ((cacheDir.data ++ ['/', 'm', 'o', 'd', 'e', 'l', 's']) ++ ['/']).all
      (fun c => c = '/') = false := by
    rw [List.all_eq_false]
    exact ⟨'m', by simp, by decide⟩
  have hr : rstripSlashes (cacheDir.data ++ ['/', 'm', 'o', 'd', 'e', 'l', 's', '/']) =
      cacheDir.data ++ ['/', 'm', 'o', 'd', 'e', 'l', 's'] := by
    unfold rstripSlashes
    rw [List.reverse_append]
    have hrev : (['/', 'm', 'o', 'd', 'e', 'l', 's', '/'] : List Char).reverse =
        ['/', 's', 'l', 'e', 'd', 'o', 'm', '/'] := by decide
    rw [hrev]
    simp [List.dropWhile]
  have hm2 : ("/models" : String).data = ['/', 'm', 'o', 'd', 'e', 'l', 's'] := rfl
  simp [hall, hr, String.ext_iff, String.data_append, hm2]

/-- Claim C8: without an explicit `model_path`, the resolved artifact path
is exactly `<cache-root>/models/<basename-of-model_url>`, and when the
artifact is not yet cached the containing `<cache-root>/models` directory
is created (for a well-formed cache root: non-empty, no trailing slash). -/
theorem init_derived_cache_path (args : InitArgs) (fs : String → Option String)
    (cacheDir : String) (dl : DlScenario)
    (hmp : args.model_path = none) (hne : cacheDir ≠ "")
    (hslash : endsWithSlash cacheDir = false)
    (hmiss : fs (cacheDir ++ "/models/" ++ basename args.model_url) = none) :
    resolvedTarget args cacheDir = cacheDir ++ "/models/" ++ basename args.model_url ∧
    (init args fs cacheDir dl).madeDir = some (cacheDir ++ "/models") := by
  have hj : join3 cacheDir "models" (basename args.model_url) =
      cacheDir ++ "/models/" ++ basename args.model_url :=
    join3_models cacheDir _ hne hslash (basename_no_slash _)
  have hdir : dirname (join3 cacheDir "models" (basename args.model_url)) =
      cacheDir ++ "/models" := by
    rw [hj]
    exact dirname_cache_path cacheDir _ (basename_no_slash _)
  have hmiss2 : fs (join3 cacheDir "models" (basename args.model_url)) = none := by
    rw [hj]
    exact hmiss
  constructor
  · simp [resolvedTarget, hmp, hj]
  · rcases hr : (download none dl).raised with _ | e
    · simp [init, hmp, hmiss2, hr, finishInit, hdir]
    · simp [init, hmp, hmiss2, hr, hdir]

/-- Witness for `init_derived_cache_path`: the default-style URL resolves
under `/cache/models`. -/
theorem init_derived_cache_path_witness :
    (witnessArgsUrl.model_path = none ∧ ("/cache" : String) ≠ "" ∧
     endsWithSlash "/cache" = false ∧
     (fun (_ : String) => (none : Option String))
       ("/cache" ++ "/models/" ++ basename witnessArgsUrl.model_url) = none) ∧
    resolvedTarget witnessArgsUrl "/cache" =
      "/cache" ++ "/models/" ++ basename witnessArgsUrl.model_url :=
  ⟨⟨rfl, by decide, by decide, rfl⟩,
   (init_derived_cache_path witnessArgsUrl (fun _ => none) "/cache" witnessDl rfl
      (by decide) (by decide) rfl).1⟩

/-! ### Stream accumulation (claim C1) -/

theorem genAux_spec : ∀ (chunks : List RawResponse) (t : String)
    (out : List CompletionResponse), genAux t chunks = some out →
    out.length = chunks.length ∧
    ∀ i r, out[i]? = some r →
      r.text = t ++ joinStr ((out.take (i + 1)).filterMap CompletionResponse.delta) ∧
      r.delta = chunks[i]?.bind firstText := by
  intro chunks
  induction chunks with
  | nil =>
    intro t out h
    simp [genAux] at h
    subst h
    refine ⟨rfl, ?_⟩
    intro i r hir
    simp at hir
  | cons c cs ih =>
    intro t out h
    unfold genAux at h
    rcases hh : c.choices.head? with _ | ch
    · rw [hh] at h; simp at h
    · rw [hh] at h
      simp only at h
      rcases hg : genAux (t ++ ch.text) cs with _ | out2
      · rw [hg] at h; simp at h
      · rw [hg] at h
        simp only [Option.map_some'] at h
        obtain ⟨hlen, hspec⟩ := ih (t ++ ch.text) out2 hg
        obtain rfl : ({ text := t ++ ch.text, delta := some ch.text, raw := c } :: out2) = out :=
          Option.some.inj h
        refine ⟨by simp [hlen], ?_⟩
        intro i r hir
        cases i with
        | zero =>
          rw [List.getElem?_cons_zero] at hir
          obtain rfl := Option.some.inj hir
          refine ⟨?_, ?_⟩
          · simp [joinStr]
          · simp [firstText, hh]
        | succ n =>
          rw [List.getElem?_cons_succ] at hir
          obtain ⟨ht, hd⟩ := hspec n r hir
          refine ⟨?_, ?_⟩
          · rw [ht]
            simp only [List.take_succ_cons, List.filterMap_cons, joinStr_cons]
            rw [String.append_assoc]
          · simpa using hd

/-- Claim C1: every response `stream_complete` yields has a `text` field
equal to the in-order concatenation of the `delta` fields of all responses
yielded so far (including the current one), each `delta` is the current
chunk's first-choice text, and the final response's `text` is the
concatenation of all deltas. -/
theorem stream_complete_accumulates (st : LLMState)
    (es : String → PyDict → List RawResponse) (prompt : String)
    (out : List CompletionResponse)
    (h : (stream_complete st es prompt).1 = some out) :
    out.length = (streamChunks st es prompt).length ∧
    (∀ i r, out[i]? = some r →
      r.text = joinStr ((out.take (i + 1)).filterMap CompletionResponse.delta) ∧
      r.delta = (streamChunks st es prompt)[i]?.bind firstText) ∧
    (∀ r, out.getLast? = some r →
      r.text = joinStr (out.filterMap CompletionResponse.delta)) := by
  have h2 : genAux "" (streamChunks st es prompt) = some out := h
  obtain ⟨hlen, hspec⟩ := genAux_spec _ _ _ h2
  refine ⟨hlen, ?_, ?_⟩
  · intro i r hir
    obtain ⟨ht, hd⟩ := hspec i r hir
    rw [String.empty_append] at ht
    exact ⟨ht, hd⟩
  · intro r hlast
    rw [List.getLast?_eq_getElem?] at hlast
    obtain ⟨ht, _⟩ := hspec (out.length - 1) r hlast
    have hne : out ≠ [] := by
      intro he
      rw [he] at hlast
      simp at hlast
    have hlen1 : out.length - 1 + 1 = out.length := by
      cases out with
      | nil => exact absurd rfl hne
      | cons a l => simp
    rw [ht, hlen1, List.take_length, String.empty_append]

/-- Witness for `stream_complete_accumulates`: a two-chunk stream with
deltas `"Hel"` and `"lo"`. -/
theorem stream_complete_accumulates_witness :
    (stream_complete witnessState witnessEngineStream "hi").1 = some witnessStreamOut ∧
    witnessStreamOut.length = (streamChunks witnessState witnessEngineStream "hi").length :=
  ⟨rfl,
   (stream_complete_accumulates witnessState witnessEngineStream "hi" witnessStreamOut rfl).1⟩

end LlamaCpp
